import Mathlib

/-!
Verification of the 1Pwned breach-check pipeline.

Shallow embedding of the repository's four Python modules:
  * `hashed_password.py` : the `HashedPassword` record and `get_full_hash`.
  * `hibp_checker.py`    : SHA-1 fingerprinting (`hash_password`), the
    line-oriented response search (`find_suffix_in_response`), the HTTP
    outcome classification (`fetch_hibp_suffixes`) and their composition
    (`check_pwned_hash`).
  * `check_op_passwords.py` : the driver loop (`main`), its tally, its
    findings, its exit behaviour and the event trace it produces
    (pull / emit / log / sleep).

Machine integers are modelled as `Nat` with explicit reduction modulo
`2 ^ 32` where the SHA-1 compression function overflows.  Network I/O is
modelled by an explicit `HttpOutcome` describing what the transport did;
exceptions become `Except` / sum-type results.
-/

/-! ## Bytes, 32-bit words and SHA-1 (Python `hashlib.sha1`)

`hibp_checker.hash_password` calls `hashlib.sha1(password.encode("utf-8"))
.hexdigest().upper()`.  The digest is embedded below: SHA-1 over a list of
bytes (each a `Nat < 256`), producing the 20-byte digest, rendered directly
as uppercase hexadecimal (rendering lowercase and then upper-casing, as the
source does, yields the same string). -/

/-- Reduce modulo `2 ^ 32`, the implicit word size of SHA-1 arithmetic. -/
def w32 (n : Nat) : Nat := n % 4294967296

/-- Left-rotation of a 32-bit word (input assumed `< 2 ^ 32`). -/
def rotl (s n : Nat) : Nat := (n * 2 ^ s + n / 2 ^ (32 - s)) % 4294967296

/-- The SHA-1 round constants K(t). -/
def sha1K (i : Nat) : Nat :=
  if i < 20 then 0x5A827999
  else if i < 40 then 0x6ED9EBA1
  else if i < 60 then 0x8F1BBCDC
  else 0xCA62C1D6

/-- The SHA-1 round functions f(t, b, c, d); `^^^ 0xFFFFFFFF` is 32-bit
complement for inputs `< 2 ^ 32`. -/
def sha1F (i b c d : Nat) : Nat :=
  if i < 20 then (b &&& c) ||| ((b ^^^ 0xFFFFFFFF) &&& d)
  else if i < 40 then b ^^^ c ^^^ d
  else if i < 60 then (b &&& c) ||| (b &&& d) ||| (c &&& d)
  else b ^^^ c ^^^ d

/-- Big-endian rendering of `n` into exactly `k` bytes. -/
def toBytesBE : Nat → Nat → List Nat
  | 0, _ => []
  | k + 1, n => toBytesBE k (n / 256) ++ [n % 256]

/-- Group a byte list into big-endian 32-bit words (SHA-1 block layout). -/
def bytesToWords : List Nat → List Nat
  | b0 :: b1 :: b2 :: b3 :: rest =>
      (b0 * 16777216 + b1 * 65536 + b2 * 256 + b3) :: bytesToWords rest
  | _ => []

/-- Extend the 16-word message schedule to 80 words.  `ws` is kept in
reverse order (head = most recent word), so `w[t-3]`, `w[t-8]`, `w[t-14]`,
`w[t-16]` are at positions 2, 7, 13, 15. -/
def extendSchedule : Nat → List Nat → List Nat
  | 0, ws => ws
  | n + 1, ws =>
      extendSchedule n
        (rotl 1 (ws.getD 2 0 ^^^ ws.getD 7 0 ^^^ ws.getD 13 0 ^^^ ws.getD 15 0) :: ws)

/-- The full 80-word SHA-1 message schedule of one 16-word block. -/
def sha1Schedule (block : List Nat) : List Nat :=
  (extendSchedule 64 block.reverse).reverse

/-- One SHA-1 round per list entry `(t, w[t])`. -/
def sha1Rounds : List (Nat × Nat) → Nat × Nat × Nat × Nat × Nat → Nat × Nat × Nat × Nat × Nat
  | [], s => s
  | (i, w) :: rest, (a, b, c, d, e) =>
      sha1Rounds rest (w32 (rotl 5 a + sha1F i b c d + e + sha1K i + w), a, rotl 30 b, c, d)

/-- The five SHA-1 chaining words. -/
structure Sha1State where
  h0 : Nat
  h1 : Nat
  h2 : Nat
  h3 : Nat
  h4 : Nat

/-- SHA-1 initial chaining value. -/
def sha1Init : Sha1State := ⟨0x67452301, 0xEFCDAB89, 0x98BADCFE, 0x10325476, 0xC3D2E1F0⟩

/-- SHA-1 compression of one 64-byte block into the chaining state. -/
def processBlock (st : Sha1State) (block : List Nat) : Sha1State :=
  let ws := sha1Schedule (bytesToWords block)
  let r := sha1Rounds ((List.range 80).zip ws) (st.h0, st.h1, st.h2, st.h3, st.h4)
  ⟨w32 (st.h0 + r.1), w32 (st.h1 + r.2.1), w32 (st.h2 + r.2.2.1),
   w32 (st.h3 + r.2.2.2.1), w32 (st.h4 + r.2.2.2.2)⟩

/-- SHA-1 padding: `0x80`, zeros to 56 mod 64, then the 64-bit bit length. -/
def sha1Pad (msg : List Nat) : List Nat :=
  msg ++ 128 :: List.replicate ((119 - msg.length % 64) % 64) 0
      ++ toBytesBE 8 (msg.length * 8)

/-- Split a byte list into 64-byte blocks; the fuel argument (any bound
`≥` the list length works, `toBlocks` passes the length itself) keeps the
recursion structural. -/
def toBlocksAux : Nat → List Nat → List (List Nat)
  | _, [] => []
  | 0, _ => []
  | fuel + 1, l => l.take 64 :: toBlocksAux fuel (l.drop 64)

/-- Split a (padded) byte list into 64-byte blocks. -/
def toBlocks (l : List Nat) : List (List Nat) := toBlocksAux l.length l

/-- The 20-byte SHA-1 digest of a byte list. -/
def sha1Bytes (msg : List Nat) : List Nat :=
  let fin := (toBlocks (sha1Pad msg)).foldl processBlock sha1Init
  toBytesBE 4 fin.h0 ++ toBytesBE 4 fin.h1 ++ toBytesBE 4 fin.h2
    ++ toBytesBE 4 fin.h3 ++ toBytesBE 4 fin.h4

/-! ## UTF-8 encoding and uppercase hex rendering -/

/-- UTF-8 encoding of one unicode scalar value (Python `str.encode("utf-8")`
acts per code point; Lean `Char` is a unicode scalar value as well). -/
def utf8EncodeChar (c : Char) : List Nat :=
  let n := c.toNat
  if n < 0x80 then [n]
  else if n < 0x800 then [0xC0 + n / 64, 0x80 + n % 64]
  else if n < 0x10000 then [0xE0 + n / 4096, 0x80 + n / 64 % 64, 0x80 + n % 64]
  else [0xF0 + n / 262144, 0x80 + n / 4096 % 64, 0x80 + n / 64 % 64, 0x80 + n % 64]

/-- UTF-8 encoding of a string, as a byte list. -/
def utf8Encode (s : String) : List Nat := s.data.flatMap utf8EncodeChar

/-- Uppercase hexadecimal digit for a nibble `< 16`. -/
def hexDigitU (n : Nat) : Char :=
  if n < 10 then Char.ofNat (48 + n) else Char.ofNat (55 + n)

/-- The two uppercase hex digits of one byte (bytes are `< 256`; the extra
`% 16` on the high nibble keeps the definition total). -/
def byteToHexU (b : Nat) : List Char := [hexDigitU (b / 16 % 16), hexDigitU (b % 16)]

/-- Uppercase hexadecimal rendering of a byte list, as produced by
`hexdigest().upper()` in the source. -/
def hexdigestUpper (bs : List Nat) : String := String.mk (bs.flatMap byteToHexU)

/-! ## `hashed_password.py` and `hash_password` -/

/-- `HashedPassword` from `hashed_password.py`: the two parts of the hash.
The source names the fields `prefix` and `suffix`; those spellings are Lean
keywords, so they are `pfx` and `sfx` here. -/
structure HashedPassword where
  pfx : String
  sfx : String
deriving DecidableEq

/-- `HashedPassword.get_full_hash`: recombines the two parts. -/
def HashedPassword.get_full_hash (hp : HashedPassword) : String :=
  hp.pfx ++ hp.sfx

/-- Python string slicing `h[:n]` (per code point). -/
def strTake (s : String) (n : Nat) : String := String.mk (s.data.take n)

/-- Python string slicing `h[n:]` (per code point). -/
def strDrop (s : String) (n : Nat) : String := String.mk (s.data.drop n)

/-- Python `len` on a string (number of code points). -/
def strLen (s : String) : Nat := s.data.length

/-- `hibp_checker.hash_password`: SHA-1 over the UTF-8 bytes, uppercase hex
digest, split as `h[:5]` / `h[5:]`. -/
def hash_password (password : String) : HashedPassword :=
  let h := hexdigestUpper (sha1Bytes (utf8Encode password))
  { pfx := strTake h 5, sfx := strDrop h 5 }

/-- Uppercase hexadecimal character (`0`-`9` or `A`-`F`). -/
def isUpperHexChar (c : Char) : Bool :=
  (48 ≤ c.toNat && c.toNat ≤ 57) || (65 ≤ c.toNat && c.toNat ≤ 70)

/-! ## Python string / int primitives used by `find_suffix_in_response` -/

/-- The line-boundary characters of Python `str.splitlines`. -/
def isPyLineBreak (c : Char) : Bool :=
  c.toNat = 10 || c.toNat = 13 || c.toNat = 11 || c.toNat = 12 ||
  c.toNat = 28 || c.toNat = 29 || c.toNat = 30 || c.toNat = 133 ||
  c.toNat = 8232 || c.toNat = 8233

/-- Worker for `splitlines`: `acc` holds the current line reversed.
`"\r\n"` counts as a single boundary; a trailing boundary produces no
empty final line. -/
def splitlinesAux : List Char → List Char → List String
  | [], acc => if acc.isEmpty then [] else [String.mk acc.reverse]
  | '\r' :: '\n' :: rest, acc => String.mk acc.reverse :: splitlinesAux rest []
  | c :: rest, acc =>
      if isPyLineBreak c then String.mk acc.reverse :: splitlinesAux rest []
      else splitlinesAux rest (c :: acc)

/-- Python `str.splitlines()`. -/
def splitlines (s : String) : List String := splitlinesAux s.data []

/-- Python `line.split(":")`: split on every colon; `n` colons give
`n + 1` parts, the empty string gives one empty part. -/
def splitColon : List Char → List (List Char)
  | [] => [[]]
  | c :: rest =>
      if c = ':' then [] :: splitColon rest
      else
        match splitColon rest with
        | [] => [[c]]
        | p :: ps => (c :: p) :: ps

/-- Characters Python `int(str)` strips before parsing (ASCII whitespace
and the common extra space characters; exotic unicode spaces are not
modelled). -/
def isPySpace (c : Char) : Bool :=
  c.toNat = 32 || (9 ≤ c.toNat && c.toNat ≤ 13) ||
  (28 ≤ c.toNat && c.toNat ≤ 31) || c.toNat = 133 || c.toNat = 160

/-- Strip `isPySpace` characters from both ends. -/
def pyStrip (l : List Char) : List Char :=
  ((l.dropWhile isPySpace).reverse.dropWhile isPySpace).reverse

/-- Digits after the first one: Python `int` allows a single `_` between
two digits (`"1_0"`), but not leading, trailing or doubled underscores. -/
def digitsUAux : List Char → Nat → Option Nat
  | [], acc => some acc
  | '_' :: c :: rest, acc =>
      if c.isDigit then digitsUAux rest (acc * 10 + (c.toNat - 48)) else none
  | c :: rest, acc =>
      if c.isDigit then digitsUAux rest (acc * 10 + (c.toNat - 48)) else none

/-- A non-empty ASCII digit sequence with optional single underscores. -/
def parseDigitsU : List Char → Option Nat
  | [] => none
  | c :: rest => if c.isDigit then digitsUAux rest (c.toNat - 48) else none

/-- Python `int(str)`: strip, optional single sign, digit sequence; `none`
models the `ValueError` the source catches (non-ASCII digits are not
modelled). -/
def pyIntParse (l : List Char) : Option Int :=
  match pyStrip l with
  | '+' :: rest => (parseDigitsU rest).map (fun n => (n : Int))
  | '-' :: rest => (parseDigitsU rest).map (fun n => -(n : Int))
  | rest => (parseDigitsU rest).map (fun n => (n : Int))

/-! ## `find_suffix_in_response` -/

/-- The `for line in response_text.splitlines()` loop body of
`find_suffix_in_response`: `suffix, count_str = line.split(":")` raises
`ValueError` unless the split has exactly two parts, and `int(count_str)`
raises `ValueError` on a non-numeric count; both are caught and the loop
moves to the next line.  A well-formed matching line returns its count
immediately. -/
def searchLines (target : String) : List String → Int
  | [] => 0
  | line :: rest =>
      match splitColon line.data with
      | [sfx, cnt] =>
          if String.mk sfx = target then
            match pyIntParse cnt with
            | some n => n
            | none => searchLines target rest
          else searchLines target rest
      | _ => searchLines target rest

/-- `hibp_checker.find_suffix_in_response`. -/
def find_suffix_in_response (response_text : String) (suffix_to_find : String) : Int :=
  searchLines suffix_to_find (splitlines response_text)

/-- Specification-side reading of one line: `some n` exactly when the line
splits into two parts at `:`, the first part equals the target exactly
(case-sensitively) and the second parses as an integer. -/
def lineMatch (target : String) (line : String) : Option Int :=
  match splitColon line.data with
  | [sfx, cnt] => if String.mk sfx = target then pyIntParse cnt else none
  | _ => none

/-! ## `fetch_hibp_suffixes` and `check_pwned_hash`

The network transport is abstracted as the outcome `requests.get` had:
either a response (status code and body text) or a request-level
exception (`requests.RequestException`: timeout, connection error, ...).
The two exception classes of `hibp_checker.py` become the two
constructors of `HIBPFailure`. -/

/-- What the HTTP transport did for one query. -/
inductive HttpOutcome where
  | response (status : Nat) (body : String)
  | requestException
deriving DecidableEq

/-- `HIBPRateLimitError` (429) versus plain `HIBPError`. -/
inductive HIBPFailure where
  | rateLimit
  | generic
deriving DecidableEq

/-- `hibp_checker.fetch_hibp_suffixes`: a 429 raises
`HIBPRateLimitError`; `r.raise_for_status()` raises `HTTPError` (a
`RequestException`) exactly for statuses in `[400, 600)`, which the
`except requests.RequestException` clause converts to `HIBPError`, as it
does any transport-level exception; every other status returns the body. -/
def fetch_hibp_suffixes (net : HttpOutcome) : Except HIBPFailure String :=
  match net with
  | .requestException => .error .generic
  | .response status body =>
      if status = 429 then .error .rateLimit
      else if 400 ≤ status ∧ status < 600 then .error .generic
      else .ok body

/-- `hibp_checker.check_pwned_hash`: fetch, then search for the suffix;
failures propagate unchanged. -/
def check_pwned_hash (hashed_pass : HashedPassword) (net : HttpOutcome) :
    Except HIBPFailure Int :=
  match fetch_hibp_suffixes net with
  | .error e => .error e
  | .ok response_text => .ok (find_suffix_in_response response_text hashed_pass.sfx)

/-! ## The driver loop of `check_op_passwords.main`

One candidate item is pulled at a time; checking it either yields a count
(`check_pwned_hash` returned), raises `HIBPRateLimitError`, raises another
`HIBPError`, raises an unexpected `Exception` (all three caught by the
loop body), or is interrupted by `KeyboardInterrupt` (not a subclass of
`Exception` in Python, hence not caught inside the loop: it propagates to
the outer handler which logs a cancellation message and calls
`sys.exit(1)` before the final tally line).  `CheckOutcome` records which
of these happened for an item. -/

/-- `op_client.LoginItem`. -/
structure LoginItem where
  id : String
  title : String
  username : Option String
  password : String
  url : Option String
deriving DecidableEq

/-- Outcome of the `try` body for one item. -/
inductive CheckOutcome where
  | count (n : Int)
  | rateLimit
  | hibpError
  | otherError
  | interrupt
deriving DecidableEq

/-- How one invocation of `main` ended. -/
inductive MainStatus where
  | completed
  | aborted
  | cancelled
deriving DecidableEq

/-- Observable result of one invocation of `main`: the final counter
values, the `print_compromised` outputs in order, how the run ended, the
tally of the final `"Check complete"` log line (`none` when that line is
never reached), and the process exit code. -/
structure MainResult where
  checked : Nat
  pwned : Nat
  findings : List (LoginItem × Int)
  status : MainStatus
  reportedTally : Option (Nat × Nat)
  exitCode : Nat
deriving DecidableEq

/-- The `for item in stream_login_items()` loop of
`check_op_passwords.main`, with the counters and findings as
accumulators.  `checked_count += 1` precedes the `try` body, so the item
that aborts or is interrupted is counted.  `break` on a rate limit falls
through to the final tally log (exit code 0); `KeyboardInterrupt` reaches
`sys.exit(1)` and the tally log never runs. -/
def mainLoop (outcome : LoginItem → CheckOutcome) :
    List LoginItem → Nat → Nat → List (LoginItem × Int) → MainResult
  | [], checked, pwned, fnds =>
      ⟨checked, pwned, fnds, .completed, some (checked, pwned), 0⟩
  | item :: rest, checked, pwned, fnds =>
      match outcome item with
      | .count n =>
          if 0 < n then mainLoop outcome rest (checked + 1) (pwned + 1) (fnds ++ [(item, n)])
          else mainLoop outcome rest (checked + 1) pwned fnds
      | .rateLimit => ⟨checked + 1, pwned, fnds, .aborted, some (checked + 1, pwned), 0⟩
      | .hibpError => mainLoop outcome rest (checked + 1) pwned fnds
      | .otherError => mainLoop outcome rest (checked + 1) pwned fnds
      | .interrupt => ⟨checked + 1, pwned, fnds, .cancelled, none, 1⟩

/-- `check_op_passwords.main` on a candidate sequence whose per-item check
outcomes are given by `outcome`. -/
def mainRun (outcome : LoginItem → CheckOutcome) (items : List LoginItem) : MainResult :=
  mainLoop outcome items 0 0 []

/-- `SLEEP_BETWEEN = 0.1` seconds from `check_op_passwords.py`. -/
def SLEEP_BETWEEN : ℚ := 1 / 10

/-- Externally visible events of the loop, in order. -/
inductive Event where
  | pull (item : LoginItem)
  | emit (item : LoginItem) (count : Int)
  | itemErrorLog (item : LoginItem)
  | rateLimitLog
  | cancelLog
  | completeLog
  | sleep (seconds : ℚ)
deriving DecidableEq

/-- The event trace of `main`: each pulled item is followed by its
outcome's events; `time.sleep(SLEEP_BETWEEN)` runs after every loop body
except when `break` (rate limit) or `KeyboardInterrupt` skips it. -/
def traceOf (outcome : LoginItem → CheckOutcome) : List LoginItem → List Event
  | [] => [.completeLog]
  | item :: rest =>
      Event.pull item ::
      match outcome item with
      | .count n =>
          (if 0 < n then [Event.emit item n] else []) ++
            Event.sleep SLEEP_BETWEEN :: traceOf outcome rest
      | .rateLimit => [.rateLimitLog, .completeLog]
      | .hibpError => Event.itemErrorLog item :: Event.sleep SLEEP_BETWEEN :: traceOf outcome rest
      | .otherError => Event.itemErrorLog item :: Event.sleep SLEEP_BETWEEN :: traceOf outcome rest
      | .interrupt => [.cancelLog]

/-- An outcome that neither aborts the run nor interrupts the process. -/
def normalOutcome (o : CheckOutcome) : Prop :=
  o ≠ CheckOutcome.rateLimit ∧ o ≠ CheckOutcome.interrupt

instance (o : CheckOutcome) : Decidable (normalOutcome o) := by
  unfold normalOutcome; infer_instance

/-- Contribution of one item to the `pwned_count` counter. -/
def stepPwned : CheckOutcome → Nat
  | .count n => if 0 < n then 1 else 0
  | _ => 0

/-- Contribution of one item to the findings list. -/
def stepFindings (item : LoginItem) : CheckOutcome → List (LoginItem × Int)
  | .count n => if 0 < n then [(item, n)] else []
  | _ => []

/-- Events of one item whose outcome is normal (rate-limit and interrupt
items close the trace instead, see `traceOf`). -/
def stepEvents (item : LoginItem) : CheckOutcome → List Event
  | .count n =>
      Event.pull item :: (if 0 < n then [Event.emit item n] else []) ++ [Event.sleep SLEEP_BETWEEN]
  | .hibpError => [Event.pull item, Event.itemErrorLog item, Event.sleep SLEEP_BETWEEN]
  | .otherError => [Event.pull item, Event.itemErrorLog item, Event.sleep SLEEP_BETWEEN]
  | _ => []

/-- `pwned_count` accumulated over a run of normal items. -/
def accPwned (outcome : LoginItem → CheckOutcome) (l : List LoginItem) : Nat :=
  (l.map (fun i => stepPwned (outcome i))).sum

/-- Findings accumulated over a run of normal items. -/
def accFindings (outcome : LoginItem → CheckOutcome) (l : List LoginItem) :
    List (LoginItem × Int) :=
  l.flatMap (fun i => stepFindings i (outcome i))

/-- Events accumulated over a run of normal items. -/
def accEvents (outcome : LoginItem → CheckOutcome) (l : List LoginItem) : List Event :=
  l.flatMap (fun i => stepEvents i (outcome i))


/-! ## Auxiliary definitions used by the statements and witnesses -/

/-- A line the loop body of `find_suffix_in_response` skips by raising
`ValueError`: not exactly two `:`-separated parts, or a count that
`int()` rejects. -/
def malformedLine (line : String) : Bool :=
  match splitColon line.data with
  | [_, q] => (pyIntParse q).isNone
  | _ => true

/-- A line whose count, if it matches, is non-negative. -/
def lineCountNonneg (target line : String) : Prop :=
  match lineMatch target line with
  | some m => 0 ≤ m
  | none => True

instance (t l : String) : Decidable (lineCountNonneg t l) := by
  unfold lineCountNonneg
  rcases lineMatch t l with _ | m
  · exact inferInstanceAs (Decidable True)
  · exact inferInstanceAs (Decidable _)

instance {ε α : Type} [DecidableEq ε] [DecidableEq α] : DecidableEq (Except ε α) := fun x y =>
  match x, y with
  | .ok a, .ok b =>
      if h : a = b then .isTrue (by rw [h]) else .isFalse (fun he => by cases he; exact h rfl)
  | .error a, .error b =>
      if h : a = b then .isTrue (by rw [h]) else .isFalse (fun he => by cases he; exact h rfl)
  | .ok _, .error _ => .isFalse (fun he => Except.noConfusion he)
  | .error _, .ok _ => .isFalse (fun he => Except.noConfusion he)

/-- Concrete candidate items and outcome stubs for the witnesses. -/
def sampleItem1 : LoginItem := ⟨"id1", "title1", some "user1", "password1", none⟩
def sampleItem2 : LoginItem := ⟨"id2", "title2", some "user2", "password2", none⟩
def sampleItem3 : LoginItem := ⟨"id3", "title3", none, "password3", none⟩
def sampleItem4 : LoginItem := ⟨"id4", "title4", none, "password4", none⟩
def sampleItem5 : LoginItem := ⟨"id5", "title5", none, "password5", none⟩

def abortOutcome : LoginItem → CheckOutcome := fun i =>
  if i = sampleItem3 then CheckOutcome.rateLimit
  else if i = sampleItem1 then CheckOutcome.count 2
  else CheckOutcome.count 0

def scenarioOutcome : LoginItem → CheckOutcome := fun i =>
  if i = sampleItem1 then CheckOutcome.count 5
  else if i = sampleItem2 then CheckOutcome.hibpError
  else CheckOutcome.count 0

/-! ## Lemmas: digest shape (Hasher) -/

theorem toBytesBE_length (k : Nat) : ∀ n, (toBytesBE k n).length = k := by
  induction k with
  | zero => intro n; rfl
  | succ k ih => intro n; simp [toBytesBE, ih]

theorem sha1Bytes_length (msg : List Nat) : (sha1Bytes msg).length = 20 := by
  simp [sha1Bytes, toBytesBE_length]

theorem flatMap_byteToHexU_length (bs : List Nat) :
    (bs.flatMap byteToHexU).length = 2 * bs.length := by
  induction bs with
  | nil => rfl
  | cons b bs ih => simp [byteToHexU, ih]; ring

theorem hexDigitU_isUpperHex : ∀ n, n < 16 → isUpperHexChar (hexDigitU n) = true := by decide

theorem mem_flatMap_byteToHexU (c : Char) (bs : List Nat)
    (h : c ∈ bs.flatMap byteToHexU) : isUpperHexChar c = true := by
  rcases List.mem_flatMap.mp h with ⟨b, _, hc⟩
  simp [byteToHexU] at hc
  rcases hc with rfl | rfl
  · exact hexDigitU_isUpperHex _ (Nat.mod_lt _ (by norm_num))
  · exact hexDigitU_isUpperHex _ (Nat.mod_lt _ (by norm_num))

theorem strTake_append_strDrop (s : String) (n : Nat) : strTake s n ++ strDrop s n = s := by
  cases s with
  | mk data =>
    show String.mk (data.take n) ++ String.mk (data.drop n) = String.mk data
    have h : String.mk (data.take n) ++ String.mk (data.drop n)
        = String.mk (data.take n ++ data.drop n) := rfl
    rw [h, List.take_append_drop]

set_option maxRecDepth 20000 in
/-- The embedded SHA-1 agrees with the standard test vector for `"abc"`
(FIPS 180-1), uppercase as the source renders it. -/
theorem sha1_test_vector :
    hexdigestUpper (sha1Bytes (utf8Encode "abc")) = "A9993E364706816ABA3E25717850C26C9CD0D89D" := by
  decide

/-- Claim C4: for every secret string `s`, `hash_password s` has a prefix
of length 5 and a suffix of length 35, both uppercase hexadecimal, and
their concatenation (`get_full_hash`) is the full uppercase hexadecimal
SHA-1 digest of the UTF-8 encoding of `s`. -/
theorem claim4_hash_shape (s : String) :
    strLen (hash_password s).pfx = 5
    ∧ (∀ c ∈ (hash_password s).pfx.data, isUpperHexChar c = true)
    ∧ strLen (hash_password s).sfx = 35
    ∧ (∀ c ∈ (hash_password s).sfx.data, isUpperHexChar c = true)
    ∧ HashedPassword.get_full_hash (hash_password s)
        = hexdigestUpper (sha1Bytes (utf8Encode s)) := by
  have hlen : ((sha1Bytes (utf8Encode s)).flatMap byteToHexU).length = 40 := by
    rw [flatMap_byteToHexU_length, sha1Bytes_length]
  refine ⟨?_, ?_, ?_, ?_, ?_⟩
  · simp only [hash_password, strTake, strLen, hexdigestUpper, List.length_take, hlen]
    omega
  · intro c hc
    simp only [hash_password, strTake, hexdigestUpper] at hc
    exact mem_flatMap_byteToHexU c _ (List.take_subset _ _ hc)
  · simp only [hash_password, strDrop, strLen, hexdigestUpper, List.length_drop, hlen]
  · intro c hc
    simp only [hash_password, strDrop, hexdigestUpper] at hc
    exact mem_flatMap_byteToHexU c _ (List.drop_subset _ _ hc)
  · exact strTake_append_strDrop (hexdigestUpper (sha1Bytes (utf8Encode s))) 5

set_option maxRecDepth 20000 in
/-- Witness for C4 at the secret `"abc"`: the hypothesis-free conjuncts
evaluate on the FIPS test vector. -/
theorem claim4_witness :
    strLen (hash_password "abc").pfx = 5
    ∧ HashedPassword.get_full_hash (hash_password "abc")
        = "A9993E364706816ABA3E25717850C26C9CD0D89D" := by
  refine ⟨(claim4_hash_shape "abc").1, ?_⟩
  rw [(claim4_hash_shape "abc").2.2.2.2]
  decide

/-! ## Lemmas: the response search -/

theorem searchLines_cons (target line : String) (rest : List String) :
    searchLines target (line :: rest) =
      (match lineMatch target line with
       | some n => n
       | none => searchLines target rest) := by
  conv_lhs => unfold searchLines
  unfold lineMatch
  rcases hsp : splitColon line.data with _ | ⟨p, _ | ⟨q, _ | ⟨r, rs⟩⟩⟩
  · rfl
  · rfl
  · by_cases heq : String.mk p = target
    · simp only [heq, if_pos]
    · simp only [if_neg heq]
  · rfl

theorem searchLines_eq_findSome (target : String) (lines : List String) :
    searchLines target lines = ((lines.findSome? (lineMatch target)).getD 0) := by
  induction lines with
  | nil => rfl
  | cons line rest ih =>
    rw [searchLines_cons, List.findSome?_cons]
    rcases lineMatch target line with _ | n
    · exact ih
    · rfl

theorem lineMatch_not_two_parts (target line : String)
    (h : (splitColon line.data).length ≠ 2) : lineMatch target line = none := by
  unfold lineMatch
  rcases hsp : splitColon line.data with _ | ⟨p, _ | ⟨q, _ | ⟨r, rs⟩⟩⟩
  · rfl
  · rfl
  · rw [hsp] at h; simp at h
  · rfl


theorem lineMatch_malformed (target line : String) (h : malformedLine line = true) :
    lineMatch target line = none := by
  unfold lineMatch
  unfold malformedLine at h
  rcases hsp : splitColon line.data with _ | ⟨p, _ | ⟨q, _ | ⟨r, rs⟩⟩⟩
  · rfl
  · rfl
  · rw [hsp] at h
    simp only [Option.isNone_iff_eq_none] at h
    by_cases heq : String.mk p = target
    · simp [heq, h]
    · simp [heq]
  · rfl

theorem splitColon_ne_nil (l : List Char) : splitColon l ≠ [] := by
  cases l with
  | nil => simp [splitColon]
  | cons c rest =>
    unfold splitColon
    by_cases h : c = ':'
    · simp [h]
    · simp only [if_neg h]
      rcases hsp : splitColon rest with _ | ⟨p, ps⟩ <;> simp

theorem splitColon_length (l : List Char) : (splitColon l).length = l.count ':' + 1 := by
  induction l with
  | nil => rfl
  | cons c rest ih =>
    unfold splitColon
    by_cases h : c = ':'
    · subst h; simp [List.count_cons, ih]
    · rcases hsp : splitColon rest with _ | ⟨p, ps⟩
      · exact absurd hsp (splitColon_ne_nil rest)
      · rw [hsp] at ih
        simp only [if_neg h, hsp, List.length_cons, List.count_cons]
        simp only [List.length_cons] at ih
        have hc : (c == ':') = false := by simpa using h
        rw [hc]
        simpa using ih
/-- Claim C5: the parser scans the split lines in body order, compares each
well-formed line (exactly one colon, integer count) case-sensitively against
the target suffix, returns the first match as soon as found and 0 when no
line matches; concretely `"AAAA1:3\nBBBB2:0\n"` yields 3 for `"AAAA1"`, 0
for the absent `"ZZZZ9"`, and 0 for the lowercase `"aaaa1"`. -/
theorem claim5_first_match :
    (∀ (body target : String),
      find_suffix_in_response body target
        = ((splitlines body).findSome? (lineMatch target)).getD 0)
    ∧ find_suffix_in_response "AAAA1:3\nBBBB2:0\n" "AAAA1" = 3
    ∧ find_suffix_in_response "AAAA1:3\nBBBB2:0\n" "ZZZZ9" = 0
    ∧ find_suffix_in_response "AAAA1:3" "aaaa1" = 0 :=
  ⟨fun body target => searchLines_eq_findSome target (splitlines body),
   by decide, by decide, by decide⟩

/-- Claim C6: a malformed line (no single colon, or a count `int()`
rejects) is skipped silently wherever it sits in the body: deleting it does
not change the result, and a valid match elsewhere is still found;
concretely `"NoColonHere"` interleaved between valid lines is harmless, and
a matching line with a bad count falls through to a later matching line. -/
theorem claim6_malformed_skipped :
    (∀ (target bad : String) (pre post : List String), malformedLine bad = true →
      searchLines target (pre ++ bad :: post) = searchLines target (pre ++ post))
    ∧ find_suffix_in_response "AAAA1:3\nNoColonHere\nBBBB2:7" "BBBB2" = 7
    ∧ find_suffix_in_response "AAAA1:x\nAAAA1:4" "AAAA1" = 4 := by
  refine ⟨?_, by decide, by decide⟩
  intro target bad pre post h
  induction pre with
  | nil =>
    rw [List.nil_append, List.nil_append, searchLines_cons,
      lineMatch_malformed target bad h]
  | cons x xs ih =>
    rw [List.cons_append, List.cons_append, searchLines_cons, searchLines_cons]
    rcases lineMatch target x with _ | n
    · exact ih
    · rfl

/-- Witness for C6: the malformedness hypothesis holds at `"NoColonHere"`
and the insertion lemma applies to the concrete interleaved body. -/
theorem claim6_witness :
    malformedLine "NoColonHere" = true
    ∧ searchLines "BBBB2" (["AAAA1:3"] ++ "NoColonHere" :: ["BBBB2:7"])
        = searchLines "BBBB2" (["AAAA1:3"] ++ ["BBBB2:7"]) :=
  ⟨by decide, claim6_malformed_skipped.1 "BBBB2" "NoColonHere" ["AAAA1:3"] ["BBBB2:7"] (by decide)⟩

/-- Claim C10 (implicit): a line with two or more colons is skipped even if
the text before the first colon equals the target and a numeric count
follows; only lines with exactly one colon can produce a match. -/
theorem claim10_multi_colon :
    (∀ (target line : String) (rest : List String), 2 ≤ line.data.count ':' →
        searchLines target (line :: rest) = searchLines target rest)
    ∧ (∀ (target line : String) (n : Int), lineMatch target line = some n →
        line.data.count ':' = 1)
    ∧ find_suffix_in_response "AAA:3:extra" "AAA" = 0 := by
  refine ⟨?_, ?_, by decide⟩
  · intro target line rest h
    rw [searchLines_cons, lineMatch_not_two_parts target line
      (by rw [splitColon_length]; omega)]
  · intro target line n h
    have h2 : (splitColon line.data).length = 2 := by
      by_contra hne
      rw [lineMatch_not_two_parts target line hne] at h
      exact Option.noConfusion h
    rw [splitColon_length] at h2
    omega

/-- Witness for C10: both hypotheses discharged at concrete lines. -/
theorem claim10_witness :
    (2 ≤ "AAA:3:extra".data.count ':'
      ∧ searchLines "AAA" ["AAA:3:extra"] = searchLines "AAA" [])
    ∧ (lineMatch "AAAA1" "AAAA1:3" = some 3 ∧ "AAAA1:3".data.count ':' = 1) :=
  ⟨⟨by decide, claim10_multi_colon.1 "AAA" "AAA:3:extra" [] (by decide)⟩,
   ⟨by decide, claim10_multi_colon.2.1 "AAAA1" "AAAA1:3" 3 (by decide)⟩⟩


/-! ## Lemmas: HTTP outcome classification -/

/-- Counterexample to Claim C2 as stated: a `204` response — a non-`200`
status — is not classified as a generic query failure; `raise_for_status`
only raises for statuses in `[400, 600)`, so the fetch succeeds and
returns the body. -/
theorem claim2_counterexample :
    fetch_hibp_suffixes (HttpOutcome.response 204 "X") = Except.ok "X"
    ∧ fetch_hibp_suffixes (HttpOutcome.response 204 "X") ≠ Except.error HIBPFailure.generic
    ∧ fetch_hibp_suffixes (HttpOutcome.response 204 "X") ≠ Except.error HIBPFailure.rateLimit := by
  refine ⟨rfl, ?_, ?_⟩ <;> decide

/-- Claim C2 amended: a 429 response is a rate-limit failure, distinct
from every other failure; any other status in `[400, 600)` or a
transport-level failure is a generic failure; statuses outside `[400,
600)` (not only 200) succeed and return the body; failures propagate
through `check_pwned_hash` as failures — never as a count of 0 — and a
200 response with an empty body yields count 0 and is not a failure. -/
theorem claim2_classification :
    (∀ body, fetch_hibp_suffixes (HttpOutcome.response 429 body) = Except.error HIBPFailure.rateLimit)
    ∧ (∀ status body, 400 ≤ status → status < 600 → status ≠ 429 →
        fetch_hibp_suffixes (HttpOutcome.response status body) = Except.error HIBPFailure.generic)
    ∧ fetch_hibp_suffixes HttpOutcome.requestException = Except.error HIBPFailure.generic
    ∧ (∀ status body, status < 400 ∨ 600 ≤ status →
        fetch_hibp_suffixes (HttpOutcome.response status body) = Except.ok body)
    ∧ (∀ hp net e, fetch_hibp_suffixes net = Except.error e →
        check_pwned_hash hp net = Except.error e)
    ∧ (∀ hp body, check_pwned_hash hp (HttpOutcome.response 200 body)
        = Except.ok (find_suffix_in_response body hp.sfx))
    ∧ (∀ hp, check_pwned_hash hp (HttpOutcome.response 200 "") = Except.ok 0) := by
  refine ⟨?_, ?_, rfl, ?_, ?_, ?_, ?_⟩
  · intro body; rfl
  · intro s b h1 h2 h3
    unfold fetch_hibp_suffixes
    dsimp only
    rw [if_neg h3, if_pos ⟨h1, h2⟩]
  · intro s b h
    unfold fetch_hibp_suffixes
    dsimp only
    rw [if_neg, if_neg]
    · rintro ⟨h4, h6⟩; omega
    · intro h429; omega
  · intro hp net e h
    unfold check_pwned_hash
    rw [h]
  · intro hp body; rfl
  · intro hp; rfl

/-- Witness for C2 at concrete statuses 500, 429, 503 and 302. -/
theorem claim2_witness :
    fetch_hibp_suffixes (HttpOutcome.response 500 "x") = Except.error HIBPFailure.generic
    ∧ fetch_hibp_suffixes (HttpOutcome.response 429 "x") = Except.error HIBPFailure.rateLimit
    ∧ check_pwned_hash ⟨"AAAAA", "AAAA1"⟩ (HttpOutcome.response 503 "")
        = Except.error HIBPFailure.generic
    ∧ fetch_hibp_suffixes (HttpOutcome.response 302 "body") = Except.ok "body" :=
  ⟨claim2_classification.2.1 500 "x" (by omega) (by omega) (by omega),
   claim2_classification.1 "x",
   claim2_classification.2.2.2.2.1 ⟨"AAAAA", "AAAA1"⟩ _ _
     (claim2_classification.2.1 503 "" (by omega) (by omega) (by omega)),
   claim2_classification.2.2.2.1 302 "body" (Or.inl (by omega))⟩


theorem searchLines_nonneg (target : String) (lines : List String)
    (h : ∀ l ∈ lines, lineCountNonneg target l) :
    0 ≤ searchLines target lines := by
  induction lines with
  | nil => exact le_refl 0
  | cons line rest ih =>
    rw [searchLines_cons]
    rcases hm : lineMatch target line with _ | n
    · exact ih (fun l hl => h l (List.mem_cons_of_mem _ hl))
    · have hc := h line (List.mem_cons_self _ _)
      unfold lineCountNonneg at hc
      rw [hm] at hc
      exact hc

/-- Counterexample to Claim C9 as stated: `int()` accepts a sign, so the
body line `"AAAA1:-3"` makes the composed query return the negative count
`-3` for the 5-character hex prefix `"AAAAA"`. -/
theorem claim9_counterexample :
    check_pwned_hash ⟨"AAAAA", "AAAA1"⟩ (HttpOutcome.response 200 "AAAA1:-3")
        = Except.ok (-3)
    ∧ (-3 : Int) < 0 := by
  refine ⟨by decide, by decide⟩

/-- Claim C9 amended: the composed query returns a non-negative integer
for every response body in which no matching line carries a negative
count (in particular every body conforming to the wire contract, whose
counts are unsigned decimals); a failed fetch never returns a count at
all. -/
theorem claim9_nonneg :
    (∀ (hp : HashedPassword) (status : Nat) (body : String),
      (∀ l ∈ splitlines body, lineCountNonneg hp.sfx l) →
      ∀ n, check_pwned_hash hp (HttpOutcome.response status body) = Except.ok n → 0 ≤ n)
    ∧ (∀ (hp : HashedPassword) (net : HttpOutcome) (e : HIBPFailure),
        fetch_hibp_suffixes net = Except.error e →
        ∀ n, check_pwned_hash hp net ≠ Except.ok n) := by
  constructor
  · intro hp s body hb n h
    unfold check_pwned_hash at h
    cases hf : fetch_hibp_suffixes (HttpOutcome.response s body) with
    | error e => rw [hf] at h; exact Except.noConfusion h
    | ok t =>
      rw [hf] at h
      dsimp only at h
      have ht : t = body := by
        unfold fetch_hibp_suffixes at hf
        dsimp only at hf
        by_cases h429 : s = 429
        · rw [if_pos h429] at hf; exact Except.noConfusion hf
        · rw [if_neg h429] at hf
          by_cases hr : 400 ≤ s ∧ s < 600
          · rw [if_pos hr] at hf; exact Except.noConfusion hf
          · rw [if_neg hr] at hf
            injection hf with hf
            exact hf.symm
      injection h with h
      rw [← h, ht]
      exact searchLines_nonneg hp.sfx (splitlines body) hb
  · intro hp net e hf n h
    unfold check_pwned_hash at h
    rw [hf] at h
    exact Except.noConfusion h

/-- Witness for C9 on a conforming body. -/
theorem claim9_witness :
    check_pwned_hash ⟨"AAAAA", "AAAA1"⟩ (HttpOutcome.response 200 "AAAA1:3") = Except.ok 3
    ∧ (0 : Int) ≤ 3 :=
  ⟨by decide,
   claim9_nonneg.1 ⟨"AAAAA", "AAAA1"⟩ 200 "AAAA1:3" (by decide) 3 (by decide)⟩

/-! ## Lemmas: the driver loop -/

theorem mainLoop_cons_normal (outcome : LoginItem → CheckOutcome) (x : LoginItem)
    (rest : List LoginItem) (checked pwned : Nat) (fnds : List (LoginItem × Int))
    (h : normalOutcome (outcome x)) :
    mainLoop outcome (x :: rest) checked pwned fnds =
      mainLoop outcome rest (checked + 1) (pwned + stepPwned (outcome x))
        (fnds ++ stepFindings x (outcome x)) := by
  rcases ho : outcome x with n | _ | _ | _ | _
  · simp only [mainLoop, ho, stepPwned, stepFindings]
    by_cases hn : 0 < n
    · simp [hn]
    · simp [hn]
  · exact absurd ho h.1
  · simp [mainLoop, ho, stepPwned, stepFindings]
  · simp [mainLoop, ho, stepPwned, stepFindings]
  · exact absurd ho h.2

theorem mainLoop_prepend (outcome : LoginItem → CheckOutcome) (pre : List LoginItem)
    (h : ∀ x ∈ pre, normalOutcome (outcome x)) :
    ∀ (rest : List LoginItem) (checked pwned : Nat) (fnds : List (LoginItem × Int)),
    mainLoop outcome (pre ++ rest) checked pwned fnds =
      mainLoop outcome rest (checked + pre.length) (pwned + accPwned outcome pre)
        (fnds ++ accFindings outcome pre) := by
  induction pre with
  | nil => intro rest checked pwned fnds; simp [accPwned, accFindings]
  | cons x xs ih =>
    intro rest checked pwned fnds
    rw [List.cons_append,
      mainLoop_cons_normal outcome x (xs ++ rest) _ _ _ (h x (List.mem_cons_self _ _)),
      ih (fun y hy => h y (List.mem_cons_of_mem _ hy)) rest]
    have e1 : checked + 1 + xs.length = checked + (x :: xs).length := by
      simp [List.length_cons]; omega
    have e2 : pwned + stepPwned (outcome x) + accPwned outcome xs
        = pwned + accPwned outcome (x :: xs) := by
      simp [accPwned, List.map_cons, List.sum_cons]; omega
    have e3 : (fnds ++ stepFindings x (outcome x)) ++ accFindings outcome xs
        = fnds ++ accFindings outcome (x :: xs) := by
      simp [accFindings, List.flatMap_cons, List.append_assoc]
    rw [e1, e2, e3]

theorem mainRun_normal (outcome : LoginItem → CheckOutcome) (items : List LoginItem)
    (h : ∀ x ∈ items, normalOutcome (outcome x)) :
    mainRun outcome items =
      ⟨items.length, accPwned outcome items, accFindings outcome items, MainStatus.completed,
       some (items.length, accPwned outcome items), 0⟩ := by
  unfold mainRun
  have hp := mainLoop_prepend outcome items h [] 0 0 []
  rw [List.append_nil] at hp
  rw [hp]
  simp [mainLoop]

theorem traceOf_cons_normal (outcome : LoginItem → CheckOutcome) (x : LoginItem)
    (rest : List LoginItem) (h : normalOutcome (outcome x)) :
    traceOf outcome (x :: rest) = stepEvents x (outcome x) ++ traceOf outcome rest := by
  rcases ho : outcome x with n | _ | _ | _ | _
  · simp only [traceOf, ho, stepEvents]
    by_cases hn : 0 < n
    · simp [hn]
    · simp [hn]
  · exact absurd ho h.1
  · simp [traceOf, ho, stepEvents]
  · simp [traceOf, ho, stepEvents]
  · exact absurd ho h.2

theorem traceOf_append (outcome : LoginItem → CheckOutcome) (pre rest : List LoginItem)
    (h : ∀ x ∈ pre, normalOutcome (outcome x)) :
    traceOf outcome (pre ++ rest) = accEvents outcome pre ++ traceOf outcome rest := by
  induction pre with
  | nil => simp [accEvents]
  | cons x xs ih =>
    rw [List.cons_append, traceOf_cons_normal outcome x _ (h x (List.mem_cons_self _ _)),
      ih (fun y hy => h y (List.mem_cons_of_mem _ hy))]
    simp [accEvents, List.flatMap_cons, List.append_assoc]

theorem mainLoop_status_exit (outcome : LoginItem → CheckOutcome) :
    ∀ (l : List LoginItem) (checked pwned : Nat) (fnds : List (LoginItem × Int)),
      ((mainLoop outcome l checked pwned fnds).status = MainStatus.cancelled →
        (mainLoop outcome l checked pwned fnds).exitCode = 1
        ∧ (mainLoop outcome l checked pwned fnds).reportedTally = none)
      ∧ ((mainLoop outcome l checked pwned fnds).status ≠ MainStatus.cancelled →
        (mainLoop outcome l checked pwned fnds).exitCode = 0
        ∧ (mainLoop outcome l checked pwned fnds).reportedTally
            = some ((mainLoop outcome l checked pwned fnds).checked,
                    (mainLoop outcome l checked pwned fnds).pwned)) := by
  intro l
  induction l with
  | nil => intro checked pwned fnds; simp [mainLoop]
  | cons x rest ih =>
    intro checked pwned fnds
    rcases ho : outcome x with n | _ | _ | _ | _ <;> simp only [mainLoop, ho]
    · by_cases hn : 0 < n
      · simp only [if_pos hn]; exact ih _ _ _
      · simp only [if_neg hn]; exact ih _ _ _
    · simp
    · exact ih _ _ _
    · exact ih _ _ _
    · simp

theorem stepFindings_mem (i : LoginItem) (o : CheckOutcome) (p : LoginItem × Int)
    (hp : p ∈ stepFindings i o) : p.1 = i := by
  rcases o with n | _ | _ | _ | _
  · unfold stepFindings at hp
    dsimp only at hp
    by_cases hn : 0 < n
    · rw [if_pos hn, List.mem_singleton] at hp; rw [hp]
    · rw [if_neg hn] at hp; exact absurd hp (List.not_mem_nil p)
  · exact absurd hp (List.not_mem_nil p)
  · exact absurd hp (List.not_mem_nil p)
  · exact absurd hp (List.not_mem_nil p)
  · exact absurd hp (List.not_mem_nil p)

theorem accFindings_mem (outcome : LoginItem → CheckOutcome) (l : List LoginItem)
    (p : LoginItem × Int) (hp : p ∈ accFindings outcome l) : p.1 ∈ l := by
  unfold accFindings at hp
  rcases List.mem_flatMap.mp hp with ⟨i, hi, hpi⟩
  rw [stepFindings_mem i (outcome i) p hpi]
  exact hi

/-! ## Lemmas: the driver loop (continued claims) -/

/-- Claim C1: when the k-th candidate's breach query raises the
rate-limit failure (and no earlier candidate aborts or interrupts), the
driver stops consuming the sequence entirely: the run result and trace
equal those of the sequence truncated right after the aborting item (so
later candidates are never pulled), the checked tally is `k` (the
aborting item counted), the findings are exactly those of the earlier
candidates, the status is aborted, and the final tally is still
reported. -/
theorem claim1_rate_limit_abort (outcome : LoginItem → CheckOutcome)
    (pre : List LoginItem) (c : LoginItem) (post : List LoginItem)
    (hpre : ∀ x ∈ pre, normalOutcome (outcome x))
    (hc : outcome c = CheckOutcome.rateLimit) :
    mainRun outcome (pre ++ c :: post) = mainRun outcome (pre ++ [c])
    ∧ (mainRun outcome (pre ++ c :: post)).checked = pre.length + 1
    ∧ (mainRun outcome (pre ++ c :: post)).status = MainStatus.aborted
    ∧ (mainRun outcome (pre ++ c :: post)).findings = (mainRun outcome pre).findings
    ∧ (mainRun outcome (pre ++ c :: post)).reportedTally
        = some ((mainRun outcome (pre ++ c :: post)).checked,
                (mainRun outcome (pre ++ c :: post)).pwned)
    ∧ (∀ p ∈ (mainRun outcome (pre ++ c :: post)).findings, p.1 ∈ pre)
    ∧ traceOf outcome (pre ++ c :: post) = traceOf outcome (pre ++ [c]) := by
  have key : ∀ post2 : List LoginItem, mainRun outcome (pre ++ c :: post2) =
      ⟨pre.length + 1, accPwned outcome pre, accFindings outcome pre, MainStatus.aborted,
       some (pre.length + 1, accPwned outcome pre), 0⟩ := by
    intro post2
    unfold mainRun
    rw [mainLoop_prepend outcome pre hpre (c :: post2) 0 0 []]
    simp [mainLoop, hc]
  have keyT : ∀ post2 : List LoginItem, traceOf outcome (pre ++ c :: post2) =
      accEvents outcome pre ++ [Event.pull c, Event.rateLimitLog, Event.completeLog] := by
    intro post2
    rw [traceOf_append outcome pre (c :: post2) hpre]
    congr 1
    simp [traceOf, hc]
  refine ⟨?_, ?_, ?_, ?_, ?_, ?_, ?_⟩
  · rw [key post, show pre ++ [c] = pre ++ c :: [] from rfl, key []]
  · rw [key post]
  · rw [key post]
  · rw [key post, mainRun_normal outcome pre hpre]
  · rw [key post]
  · intro p hp
    rw [key post] at hp
    exact accFindings_mem outcome pre p hp
  · rw [keyT post, show pre ++ [c] = pre ++ c :: [] from rfl, keyT []]


/-- Witness for C1: the spec's five-item scenario with the rate limit at
item 3 — checked 3, aborted, findings only from items 1 and 2, and items
4 and 5 never attempted. -/
theorem claim1_witness :
    (∀ x ∈ [sampleItem1, sampleItem2], normalOutcome (abortOutcome x))
    ∧ abortOutcome sampleItem3 = CheckOutcome.rateLimit
    ∧ (mainRun abortOutcome
        ([sampleItem1, sampleItem2] ++ sampleItem3 :: [sampleItem4, sampleItem5])).checked = 3
    ∧ (mainRun abortOutcome
        ([sampleItem1, sampleItem2] ++ sampleItem3 :: [sampleItem4, sampleItem5])).status
        = MainStatus.aborted
    ∧ (mainRun abortOutcome
        ([sampleItem1, sampleItem2] ++ sampleItem3 :: [sampleItem4, sampleItem5])).findings
        = [(sampleItem1, 2)]
    ∧ mainRun abortOutcome ([sampleItem1, sampleItem2] ++ sampleItem3 :: [sampleItem4, sampleItem5])
        = mainRun abortOutcome ([sampleItem1, sampleItem2] ++ [sampleItem3]) := by
  have h := claim1_rate_limit_abort abortOutcome [sampleItem1, sampleItem2] sampleItem3
    [sampleItem4, sampleItem5] (by decide) (by decide)
  exact ⟨by decide, by decide, h.2.1, h.2.2.1, by decide, h.1⟩

/-- Counterexample to Claim C3 as stated: on an interrupted run the
`KeyboardInterrupt` handler calls `sys.exit(1)` before the final tally
log line, so although one item was already counted, no partial tally is
reported (`reportedTally = none`). -/
theorem claim3_counterexample :
    (mainRun (fun _ => CheckOutcome.interrupt) [sampleItem1]).checked = 1
    ∧ (mainRun (fun _ => CheckOutcome.interrupt) [sampleItem1]).reportedTally = none
    ∧ (mainRun (fun _ => CheckOutcome.interrupt) [sampleItem1]).exitCode = 1 := by
  decide

/-- Claim C3 amended: an operator interrupt stops the run at the
interrupted item (later candidates are never pulled) and is surfaced
distinctly — cancelled status, exit code 1 and a cancellation log event,
while every non-cancelled run exits 0 and reports a tally — but the
partial tally itself is NOT reported on the cancelled run. -/
theorem claim3_cancellation (outcome : LoginItem → CheckOutcome)
    (pre : List LoginItem) (c : LoginItem) (post : List LoginItem)
    (hpre : ∀ x ∈ pre, normalOutcome (outcome x))
    (hc : outcome c = CheckOutcome.interrupt) :
    mainRun outcome (pre ++ c :: post) = mainRun outcome (pre ++ [c])
    ∧ (mainRun outcome (pre ++ c :: post)).status = MainStatus.cancelled
    ∧ (mainRun outcome (pre ++ c :: post)).exitCode = 1
    ∧ (mainRun outcome (pre ++ c :: post)).reportedTally = none
    ∧ (mainRun outcome (pre ++ c :: post)).checked = pre.length + 1
    ∧ (mainRun outcome (pre ++ c :: post)).findings = (mainRun outcome pre).findings
    ∧ (∀ (outcome2 : LoginItem → CheckOutcome) (items2 : List LoginItem),
        (mainRun outcome2 items2).status ≠ MainStatus.cancelled →
        (mainRun outcome2 items2).exitCode = 0
        ∧ (mainRun outcome2 items2).reportedTally
            = some ((mainRun outcome2 items2).checked, (mainRun outcome2 items2).pwned))
    ∧ traceOf outcome (pre ++ c :: post)
        = accEvents outcome pre ++ [Event.pull c, Event.cancelLog] := by
  have key : ∀ post2 : List LoginItem, mainRun outcome (pre ++ c :: post2) =
      ⟨pre.length + 1, accPwned outcome pre, accFindings outcome pre, MainStatus.cancelled,
       none, 1⟩ := by
    intro post2
    unfold mainRun
    rw [mainLoop_prepend outcome pre hpre (c :: post2) 0 0 []]
    simp [mainLoop, hc]
  refine ⟨?_, ?_, ?_, ?_, ?_, ?_, ?_, ?_⟩
  · rw [key post, show pre ++ [c] = pre ++ c :: [] from rfl, key []]
  · rw [key post]
  · rw [key post]
  · rw [key post]
  · rw [key post]
  · rw [key post, mainRun_normal outcome pre hpre]
  · intro outcome2 items2
    exact (mainLoop_status_exit outcome2 items2 0 0 []).2
  · rw [traceOf_append outcome pre (c :: post) hpre]
    congr 1
    simp [traceOf, hc]

/-- Witness for C3 amended with the interrupt at the first of two
items. -/
theorem claim3_witness :
    (fun (_ : LoginItem) => CheckOutcome.interrupt) sampleItem1 = CheckOutcome.interrupt
    ∧ (mainRun (fun _ => CheckOutcome.interrupt) ([] ++ sampleItem1 :: [sampleItem2])).status
        = MainStatus.cancelled
    ∧ (mainRun (fun _ => CheckOutcome.interrupt) ([] ++ sampleItem1 :: [sampleItem2])).exitCode = 1
    ∧ (mainRun (fun _ => CheckOutcome.interrupt) ([] ++ sampleItem1 :: [sampleItem2])).reportedTally
        = none := by
  have h := claim3_cancellation (fun _ => CheckOutcome.interrupt) [] sampleItem1 [sampleItem2]
    (by decide) (by decide)
  exact ⟨by decide, h.2.1, h.2.2.1, h.2.2.2.1⟩

/-- Claim C7: per-item failures are never fatal — when no candidate's
outcome is a rate limit or an interrupt the run completes normally,
checks every candidate, exits 0, reports the tally, and candidates whose
check raised a generic or unexpected failure contribute no finding. -/
theorem claim7_per_item_failure (outcome : LoginItem → CheckOutcome) (items : List LoginItem)
    (h : ∀ x ∈ items, normalOutcome (outcome x)) :
    (mainRun outcome items).status = MainStatus.completed
    ∧ (mainRun outcome items).checked = items.length
    ∧ (mainRun outcome items).exitCode = 0
    ∧ (mainRun outcome items).findings = accFindings outcome items
    ∧ (mainRun outcome items).reportedTally = some (items.length, (mainRun outcome items).pwned)
    ∧ (∀ x : LoginItem, outcome x = CheckOutcome.hibpError ∨ outcome x = CheckOutcome.otherError →
        stepFindings x (outcome x) = []) := by
  rw [mainRun_normal outcome items h]
  refine ⟨rfl, rfl, rfl, rfl, rfl, ?_⟩
  intro x hx
  rcases hx with hx | hx <;> rw [hx] <;> rfl


/-- Witness for C7: the spec's three-item scenario — item 1 pwned with
count 5, item 2's query fails generically, item 3 clean: one finding,
checked 3, found 1, completed normally. -/
theorem claim7_witness :
    (∀ x ∈ [sampleItem1, sampleItem2, sampleItem3], normalOutcome (scenarioOutcome x))
    ∧ (mainRun scenarioOutcome [sampleItem1, sampleItem2, sampleItem3]).status
        = MainStatus.completed
    ∧ (mainRun scenarioOutcome [sampleItem1, sampleItem2, sampleItem3]).checked = 3
    ∧ (mainRun scenarioOutcome [sampleItem1, sampleItem2, sampleItem3]).pwned = 1
    ∧ (mainRun scenarioOutcome [sampleItem1, sampleItem2, sampleItem3]).findings
        = [(sampleItem1, 5)] := by
  refine ⟨by decide, (claim7_per_item_failure scenarioOutcome _ (by decide)).1,
    by decide, by decide, by decide⟩

/-- Claim C8: the inter-request pause is the fixed `SLEEP_BETWEEN = 0.1`
seconds; after every processed candidate with a caught outcome (a count,
a generic failure or an unexpected failure) the item's events end with
that sleep before the next candidate is pulled (every item's trace starts
with its pull event); only the item that triggers the rate-limit abort is
followed by no sleep at all. -/
theorem claim8_pause (outcome : LoginItem → CheckOutcome) (item : LoginItem)
    (rest : List LoginItem) :
    SLEEP_BETWEEN = 1 / 10
    ∧ (normalOutcome (outcome item) →
        traceOf outcome (item :: rest) = stepEvents item (outcome item) ++ traceOf outcome rest
        ∧ (stepEvents item (outcome item)).getLast? = some (Event.sleep SLEEP_BETWEEN))
    ∧ (outcome item = CheckOutcome.rateLimit →
        traceOf outcome (item :: rest) = [Event.pull item, Event.rateLimitLog, Event.completeLog]
        ∧ ∀ d, Event.sleep d ∉ traceOf outcome (item :: rest))
    ∧ (∀ (r : LoginItem) (more : List LoginItem), ∃ t,
        traceOf outcome (r :: more) = Event.pull r :: t) := by
  refine ⟨rfl, ?_, ?_, ?_⟩
  · intro hno
    refine ⟨traceOf_cons_normal outcome item rest hno, ?_⟩
    rcases ho : outcome item with n | _ | _ | _ | _
    · unfold stepEvents
      dsimp only
      by_cases hn : 0 < n
      · rw [if_pos hn]; rfl
      · rw [if_neg hn]; rfl
    · exact absurd ho hno.1
    · rfl
    · rfl
    · exact absurd ho hno.2
  · intro hrl
    have ht : traceOf outcome (item :: rest)
        = [Event.pull item, Event.rateLimitLog, Event.completeLog] := by
      simp [traceOf, hrl]
    refine ⟨ht, ?_⟩
    intro d hd
    rw [ht] at hd
    simp at hd
  · intro r more
    exact ⟨_, rfl⟩

/-- Witness for C8 at a generic-failure item and at the aborting item. -/
theorem claim8_witness :
    normalOutcome (scenarioOutcome sampleItem2)
    ∧ (stepEvents sampleItem2 (scenarioOutcome sampleItem2)).getLast?
        = some (Event.sleep SLEEP_BETWEEN)
    ∧ traceOf scenarioOutcome [sampleItem2]
        = stepEvents sampleItem2 (scenarioOutcome sampleItem2) ++ traceOf scenarioOutcome []
    ∧ abortOutcome sampleItem3 = CheckOutcome.rateLimit
    ∧ traceOf abortOutcome [sampleItem3]
        = [Event.pull sampleItem3, Event.rateLimitLog, Event.completeLog] := by
  refine ⟨by decide, ((claim8_pause scenarioOutcome sampleItem2 []).2.1 (by decide)).2,
    ((claim8_pause scenarioOutcome sampleItem2 []).2.1 (by decide)).1, by decide,
    ((claim8_pause abortOutcome sampleItem3 []).2.2.1 (by decide)).1⟩
